import Mathlib

/-!
Verification of the conversational agent core of the ollama_agent_toolkit
repository (src/memory.py, src/agent.py), as a shallow embedding in Lean.
Python lists become `List`, string-keyed dictionaries become association
lists, and code that raises becomes `Except`-valued.  The float token
counter is modelled exactly, in integer tenths of a token: each word
contributes 13 tenths (the source multiplier 1.3) and the budget
max_tokens is compared after scaling by 10, which is the same exact
comparison token_count > max_tokens.  The
message timestamp field (wall-clock time) is omitted: no verified property
mentions it.
-/

namespace OllamaAgent

/-- Embedding of memory.Message: a role-tagged message.  The Python class
also stores a creation timestamp taken from the wall clock; it is not
modelled, since no property in this development depends on it. -/
structure Message where
  role : String
  content : String
deriving DecidableEq

/-- Embedding of Message.to_chat_message: the role/content pair handed to
the chat backend. -/
structure ChatMessage where
  role : String
  content : String
deriving DecidableEq

/-- Conversion used by Memory.get_chat_messages and friends. -/
def Message.toChatMessage (m : Message) : ChatMessage :=
  { role := m.role, content := m.content }

/-- Embedding of len(content.split()): the number of maximal nonempty
whitespace-delimited runs of the content, counted by a single scan with an
inside-a-word flag. -/
def wordCountAux : List Char → Bool → Nat
  | [], _ => 0
  | c :: rest, inWord =>
    if c.isWhitespace then wordCountAux rest false
    else (if inWord then 0 else 1) + wordCountAux rest true

/-- Embedding of len(content.split()). -/
def wordCount (s : String) : Nat :=
  wordCountAux s.data false

/-- Scale factor 1.3 of the token approximation, represented exactly as 13
tenths of a token per word. -/
def tokenTenths : Int := 13

/-- Token contribution of one message content, in tenths of a token:
len(content.split()) * 1.3 tokens is this many tenths. -/
def msgTokens (content : String) : Int :=
  (wordCount content : Int) * tokenTenths

/-- Embedding of memory.Memory: the ordered message log, the budget
max_tokens, and the running counter token_count. -/
structure Memory where
  messages : List Message
  maxTokens : Nat
  tokenCount : Int

/-- Embedding of Memory.__init__ (default max_tokens = 16000). -/
def Memory.init (maxTokens : Nat := 16000) : Memory :=
  { messages := [], maxTokens := maxTokens, tokenCount := 0 }

/-- Embedding of the loop in Memory._prune_if_needed: while token_count
exceeds max_tokens and more than 3 messages remain, pop the oldest message
and subtract its contribution from the counter. -/
def pruneLoop (maxTokens : Nat) : List Message → Int → List Message × Int
  | [], tc => ([], tc)
  | m :: rest, tc =>
    if 10 * (maxTokens : Int) < tc ∧ 3 < (m :: rest).length then
      pruneLoop maxTokens rest (tc - msgTokens m.content)
    else (m :: rest, tc)

/-- Embedding of Memory.add_message: append the new message, add its token
contribution to the counter, then prune. -/
def Memory.addMessage (mem : Memory) (role content : String) : Memory :=
  let pruned := pruneLoop mem.maxTokens
    (mem.messages ++ [{ role := role, content := content }])
    (mem.tokenCount + msgTokens content)
  { mem with messages := pruned.1, tokenCount := pruned.2 }

/-- Embedding of Memory.get_chat_messages. -/
def Memory.getChatMessages (mem : Memory) : List ChatMessage :=
  mem.messages.map Message.toChatMessage

/-- Embedding of Memory.get_last_n_messages, whose body is the Python slice
messages[-n:].  For n = 0 the slice [-0:] is [0:], the whole list; for
n ≥ 1 it is the suffix of length min n (length), which truncated Nat
subtraction renders as drop (length - n). -/
def Memory.getLastNMessages (mem : Memory) (n : Nat) : List ChatMessage :=
  if n = 0 then mem.messages.map Message.toChatMessage
  else (mem.messages.drop (mem.messages.length - n)).map Message.toChatMessage

/-- Embedding of Memory.get_context_window. -/
def Memory.getContextWindow (mem : Memory) : String :=
  String.intercalate "\n\n"
    (mem.messages.map (fun m => m.role.toUpper ++ ": " ++ m.content))

/-- Embedding of Memory.clear. -/
def Memory.clear (mem : Memory) : Memory :=
  { mem with messages := [], tokenCount := 0 }

/-- Embedding of tools.Tool: a named capability.  The Python call
tool(**parameters) either returns a string or raises; raising with message
c is modelled as Except.error c. -/
structure Tool where
  name : String
  description : String
  run : List (String × String) → Except String String

/-- Embedding of Agent._execute_tool: scan the tool list for the first
name match; invoke it, converting a raised error with cause c into the
string Error executing tool; with no match, return the Unknown tool
string.  The function is total: it never fails. -/
def executeTool (tools : List Tool) (toolName : String)
    (params : List (String × String)) : String :=
  match tools with
  | [] => "Unknown tool: " ++ toolName
  | t :: rest =>
    if t.name = toolName then
      match t.run params with
      | .ok s => s
      | .error c => "Error executing tool \x27" ++ toolName ++ "\x27: " ++ c
    else executeTool rest toolName params

/-- Consume one expected character. -/
def eatChar (c : Char) : List Char → Option (List Char)
  | x :: rest => if x = c then some rest else none
  | [] => none

/-- Consume a sequence of expected characters. -/
def eatChars : List Char → List Char → Option (List Char)
  | [], cs => some cs
  | l :: ls, cs => (eatChar l cs).bind (eatChars ls)

/-- Consume what the pattern fragment written as backslash backslash s star
denotes inside the raw-string regex of Agent._extract_tool_call: because
the backslash is doubled, it is a literal backslash character followed by
zero or more letters s (not a whitespace class). -/
def eatBSs (cs : List Char) : Option (List Char) :=
  (eatChar '\\' cs).map (List.dropWhile (fun c => c = 's'))

/-- Consume the first capture group of the pattern: one or more characters
other than a double quote, followed by the closing double quote.  The
regex run is deterministic here: the group cannot cross a quote, so the
greedy match ends exactly at the first quote. -/
def eatGroup1 (cs : List Char) : Option (List Char) :=
  if (cs.takeWhile (fun c => c ≠ '\"')).length ≥ 1 then
    eatChar '\"' (cs.dropWhile (fun c => c ≠ '\"'))
  else none

/-- Consume the second capture group of the pattern: one or more characters
other than a closing brace, followed by a literal backslash and a closing
brace.  Writing r for the distance to the first closing brace, the only
way the regex can continue is with a group of length r - 1 whose following
character, position r - 1, is a backslash; the brace at position r is then
consumed. -/
def eatGroup2 (cs : List Char) : Option (List Char) :=
  let r := (cs.takeWhile (fun c => c ≠ '\x7d')).length
  if 2 ≤ r ∧ cs.get? (r - 1) = some '\\' ∧ cs.get? r = some '\x7d' then
    some (cs.drop (r + 1))
  else none

/-- Length of the match of the raw-string regex of Agent._extract_tool_call
at the start of the text, if any.  The pattern in the source doubles every
backslash inside a raw string, so each occurrence of backslash-backslash
matches a literal backslash character in the text; the literal token
sequence is: brace, backslash s star, quoted word tool, backslash s star,
colon, backslash s star, quote, group one, quote, backslash s star, comma,
backslash s star, quoted word parameters, backslash s star, colon,
backslash s star, backslash, brace, group two, backslash, closing brace,
backslash s star, backslash, closing brace. -/
def matchLen (cs : List Char) : Option Nat :=
  ((((((((((((((((((((eatChar '\x7b' cs).bind
    eatBSs).bind
    (eatChars "\"tool\"".data)).bind
    eatBSs).bind
    (eatChar ':')).bind
    eatBSs).bind
    (eatChar '\"')).bind
    eatGroup1).bind
    eatBSs).bind
    (eatChar ',')).bind
    eatBSs).bind
    (eatChars "\"parameters\"".data)).bind
    eatBSs).bind
    (eatChar ':')).bind
    eatBSs).bind
    (eatChar '\\')).bind
    (eatChar '\x7b')).bind
    eatGroup2).bind
    eatBSs).bind
    (eatChar '\\')).bind
    (eatChar '\x7d')
  |>.map (fun r => cs.length - r.length)

/-- Embedding of re.search with the pattern of Agent._extract_tool_call:
the match at the leftmost starting position wins; the returned value is
the matched span (group 0). -/
def regexSearch : List Char → Option (List Char)
  | [] =>
    match matchLen [] with
    | some n => some (List.take n [])
    | none => none
  | c :: rest =>
    match matchLen (c :: rest) with
    | some n => some ((c :: rest).take n)
    | none => regexSearch rest

/-- Whitespace characters of the JSON grammar. -/
def jsonWs (c : Char) : Bool :=
  c = ' ' || c = '\t' || c = '\n' || c = '\r'

/-- Parse a JSON string literal starting at a double quote, with the
escape pairs for quote and backslash; other escapes are rejected. -/
def parseJString : List Char → Option (String × List Char)
  | '\"' :: rest => parseJStringBody rest []
  | _ => none
where
  parseJStringBody : List Char → List Char → Option (String × List Char)
    | [], _ => none
    | '\"' :: r, acc => some (String.mk acc.reverse, r)
    | '\\' :: c :: r, acc =>
      if c = '\"' ∨ c = '\\' then parseJStringBody r (c :: acc) else none
    | c :: r, acc => parseJStringBody r (c :: acc)

/-- Parse the string-keyed, string-valued pairs of a flat JSON object,
starting after the opening brace and its following whitespace, up to and
including the closing brace.  The fuel argument bounds the recursion and
is always at least the input length at the call sites. -/
def parsePairs : Nat → List Char → Option (List (String × String) × List Char)
  | 0, _ => none
  | fuel + 1, cs =>
    match parseJString cs with
    | none => none
    | some (k, r1) =>
      match eatChar ':' (r1.dropWhile jsonWs) with
      | none => none
      | some r3 =>
        match parseJString (r3.dropWhile jsonWs) with
        | none => none
        | some (v, r5) =>
          match r5.dropWhile jsonWs with
          | ',' :: r7 =>
            match parsePairs fuel (r7.dropWhile jsonWs) with
            | none => none
            | some (ps, r9) => some ((k, v) :: ps, r9)
          | '\x7d' :: r7 => some ([(k, v)], r7)
          | _ => none

/-- Model of json.loads applied by Agent._extract_tool_call to the matched
span, restricted to the tool-call wire convention of the system: an object
with the key tool mapped to a string and the key parameters mapped to a
flat string-keyed object of string values.  The model is exact on the one
fact this development uses: a successful Python decode of a top-level
object requires the first non-whitespace character to be an opening brace
and the next non-whitespace character after it to be a double quote or a
closing brace, while every span produced by regexSearch has a backslash
there, so decoding always fails. -/
def jsonToolCall (cs : List Char) : Option (String × List (String × String)) :=
  match eatChar '\x7b' (cs.dropWhile jsonWs) with
  | none => none
  | some r1 =>
    match r1.dropWhile jsonWs with
    | '\"' :: _ =>
      matchKeys (r1.dropWhile jsonWs)
    | _ => none
where
  matchKeys (r2 : List Char) : Option (String × List (String × String)) :=
    match eatChars "\"tool\"".data r2 with
    | none => none
    | some r3 =>
      match eatChar ':' (r3.dropWhile jsonWs) with
      | none => none
      | some r5 =>
        match parseJString (r5.dropWhile jsonWs) with
        | none => none
        | some (toolName, r7) =>
          match eatChar ',' (r7.dropWhile jsonWs) with
          | none => none
          | some r9 =>
            match eatChars "\"parameters\"".data (r9.dropWhile jsonWs) with
            | none => none
            | some r11 =>
              match eatChar ':' (r11.dropWhile jsonWs) with
              | none => none
              | some r13 =>
                match eatChar '\x7b' (r13.dropWhile jsonWs) with
                | none => none
                | some r15 =>
                  matchParams toolName (r15.dropWhile jsonWs)
  matchParams (toolName : String) (r16 : List Char) :
      Option (String × List (String × String)) :=
    match
      (match r16 with
       | '\x7d' :: r => some (([] : List (String × String)), r)
       | _ => parsePairs r16.length r16) with
    | none => none
    | some (params, r17) =>
      match eatChar '\x7d' (r17.dropWhile jsonWs) with
      | none => none
      | some r19 =>
        if (r19.dropWhile jsonWs).isEmpty then some (toolName, params) else none

/-- Embedding of Agent._extract_tool_call: search the response for the
regex pattern; on a match, attempt to decode the span as JSON; on success
return the tool name, the parameters and the response with every copy of
the span removed (Python str.replace replaces all occurrences); on a
decode failure or no match, return no call and the response unchanged. -/
def extractToolCall (response : String) :
    Option String × Option (List (String × String)) × String :=
  match regexSearch response.data with
  | none => (none, none, response)
  | some span =>
    match jsonToolCall span with
    | none => (none, none, response)
    | some (toolName, params) =>
      (some toolName, some params, response.replace (String.mk span) "")

/-- Embedding of agent.Agent session state.  The HTTP client object has no
state of its own that the core reads; the generation capability is passed
to processUserInput explicitly. -/
structure Agent where
  model : String
  memory : Memory
  tools : List Tool
  verbose : Bool
  systemPrompt : String

/-- Embedding of Agent._create_default_system_prompt: the catalog line per
tool joined by newlines, spliced into the fixed prompt text (literal
braces and apostrophes of the source are written with character escapes). -/
def createDefaultSystemPrompt (tools : List Tool) : String :=
  let toolsDescription :=
    String.intercalate "\n" (tools.map (fun t => "- " ++ t.name ++ ": " ++ t.description))
  "You are a helpful AI assistant that can use tools to assist the user. \n        \nAVAILABLE TOOLS:\n"
    ++ toolsDescription
    ++ "\n\nTo use a tool, respond with a JSON object in the following format:\x7b\"tool\":\"tool_name\",\"parameters\":\x7b\"param1\":\"value1\",\"param2\":\"value2\"\x7d\x7d\n\nIf you don\x27t need to use a tool, just respond normally.\nIf a user requests something that would be better handled by a tool, use the appropriate tool.\nAlways provide thoughtful, helpful responses and prioritize solving the user\x27s problem."

/-- Embedding of Agent.__init__: resolve the tool list (a missing or empty
argument selects tools.STANDARD_TOOLS, passed here as the external
capability list standardTools), resolve the system prompt, create a
Memory with the default budget and add the system prompt to it. -/
def agentInit (model : String) (systemPrompt : Option String)
    (tools : Option (List Tool)) (standardTools : List Tool)
    (verbose : Bool) : Agent :=
  let ts :=
    match tools with
    | none => standardTools
    | some l => if l.isEmpty then standardTools else l
  let sp :=
    match systemPrompt with
    | none => createDefaultSystemPrompt ts
    | some s => s
  { model := model
    memory := (Memory.init 16000).addMessage "system" sp
    tools := ts
    verbose := verbose
    systemPrompt := sp }

/-- Embedding of Agent.process_user_input.  The generation capability
backend stands for OllamaClient.chat with the fixed model, system prompt
and temperature of the agent folded in; its first argument is the index of
the chat call within the turn (0 for the primary call, 1 for the followup)
and its second the message snapshot; a raised backend error is an
Except.error value and propagates out of the turn.  The result is the
returned response (or the propagated error), the agent as left by the
turn, and the number of chat calls issued. -/
def Agent.processUserInput (a : Agent) (userInput : String)
    (backend : Nat → List ChatMessage → Except String String) :
    Except String String × Agent × Nat :=
  let mem1 := a.memory.addMessage "user" userInput
  match backend 0 mem1.getChatMessages with
  | .error e => (.error e, { a with memory := mem1 }, 1)
  | .ok response =>
    match extractToolCall response with
    | (some toolName, params, cleanedResponse) =>
      if toolName = "" then
        (.ok response, { a with memory := mem1.addMessage "assistant" response }, 1)
      else
        let toolResponse := executeTool a.tools toolName (params.getD [])
        let mem2 := (mem1.addMessage "assistant" cleanedResponse).addMessage
          "system" ("Tool \x27" ++ toolName ++ "\x27 output: " ++ toolResponse)
        match backend 1 mem2.getChatMessages with
        | .error e => (.error e, { a with memory := mem2 }, 2)
        | .ok finalResponse =>
          (.ok finalResponse,
            { a with memory := mem2.addMessage "assistant" finalResponse }, 2)
    | (none, _, _) =>
      (.ok response, { a with memory := mem1.addMessage "assistant" response }, 1)

/-- Embedding of Agent.reset: clear the memory and add the system prompt
back. -/
def Agent.reset (a : Agent) : Agent :=
  { a with memory := (a.memory.clear).addMessage "system" a.systemPrompt }

/-- Folding a list of role/content appends into a memory, the shape of any
client-driven sequence of add_message calls. -/
def runAdds (mem : Memory) (adds : List (String × String)) : Memory :=
  adds.foldl (fun m rc => m.addMessage rc.1 rc.2) mem

/-- Well-formed tool-call object of the wire convention, with the two keys
tool and parameters and a flat one-entry parameter object. -/
def c1Json : String := "\x7b\"tool\":\"X\",\"parameters\":\x7b\"a\":\"b\"\x7d\x7d"

/-- Text containing exactly one occurrence of the well-formed tool-call
substring. -/
def c1Input : String := "I choose X. " ++ c1Json

/-- Registry with the calculate tool of scenario B, whose capability
returns the fixed result string. -/
def c2Tools : List Tool :=
  [{ name := "calculate", description := "Evaluate a mathematical expression",
     run := fun _ => .ok "Result: 4" }]

/-- Primary backend response of scenario B. -/
def c2Primary : String :=
  "I will compute this. \x7b\"tool\":\"calculate\",\"parameters\":\x7b\"expression\":\"2+2\"\x7d\x7d"

/-- Scripted backend of scenario B: the primary call returns the response
with the embedded call, any followup call returns the fixed followup. -/
def c2Backend : Nat → List ChatMessage → Except String String :=
  fun k _ => if k = 0 then .ok c2Primary else .ok "followup_response"

/-- Agent of scenario B. -/
def c2Agent : Agent := agentInit "llama3" (some "sys") (some c2Tools) [] false

/-- Memory holding three one-word messages over a tiny budget. -/
def memC3 : Memory :=
  (((Memory.init 1).addMessage "system" "a").addMessage "user" "b").addMessage
    "assistant" "c"

/-- Memory after four one-word appends over a tiny budget: the fourth
append evicts the oldest message. -/
def memC5 : Memory :=
  ((((Memory.init 1).addMessage "user" "a").addMessage "user" "b").addMessage
    "user" "c").addMessage "user" "d"

/-- Agent used for the backend-failure scenario. -/
def c6Agent : Agent := agentInit "llama3" (some "sys") (some []) [] false

/-- Backend that always fails. -/
def c6Backend : Nat → List ChatMessage → Except String String :=
  fun _ _ => .error "connection refused"

/-- Tool whose capability always raises. -/
def c7Tool : Tool :=
  { name := "boom", description := "always fails", run := fun _ => .error "kaboom" }

/-- Two tools sharing one name. -/
def dupTools : List Tool :=
  [{ name := "dup", description := "first", run := fun _ => .ok "one" },
   { name := "dup", description := "second", run := fun _ => .ok "two" }]

/-- Memory holding one message. -/
def memC9 : Memory := (Memory.init 16000).addMessage "user" "hi"

/-- Memory holding two messages. -/
def memC9b : Memory :=
  ((Memory.init 16000).addMessage "user" "one").addMessage "assistant" "two"

theorem matchLen_start {cs : List Char} {n : Nat} (h : matchLen cs = some n) :
    ∃ rest, cs = '\x7b' :: '\\' :: rest := by
  match cs with
  | [] =>
    have hnone : matchLen [] = none := rfl
    rw [hnone] at h
    exact Option.noConfusion h
  | x :: rest =>
    by_cases hx : x = '\x7b'
    · subst hx
      match rest with
      | [] =>
        have hnone : matchLen ['\x7b'] = none := rfl
        rw [hnone] at h
        exact Option.noConfusion h
      | y :: rest2 =>
        by_cases hy : y = '\\'
        · subst hy
          exact ⟨rest2, rfl⟩
        · exfalso
          simp [matchLen, eatChar, eatBSs, hy] at h
    · exfalso
      simp [matchLen, eatChar, hx] at h

theorem jsonToolCall_brace_backslash (r : List Char) :
    jsonToolCall ('\x7b' :: '\\' :: r) = none := rfl

theorem regexSearch_span_undecodable :
    ∀ (cs span : List Char), regexSearch cs = some span → jsonToolCall span = none := by
  intro cs
  induction cs with
  | nil =>
    intro span h
    have hnone : regexSearch [] = none := rfl
    rw [hnone] at h
    exact Option.noConfusion h
  | cons c rest ih =>
    intro span h
    have hrw : regexSearch (c :: rest) =
        match matchLen (c :: rest) with
        | some n => some ((c :: rest).take n)
        | none => regexSearch rest := rfl
    rw [hrw] at h
    cases hm : matchLen (c :: rest) with
    | some n =>
      rw [hm] at h
      obtain ⟨rest2, heq⟩ := matchLen_start hm
      have hspan : span = (c :: rest).take n := by
        exact (Option.some.injEq _ _).mp h.symm
      rw [heq] at hspan
      match n, hspan with
      | 0, hspan => rw [hspan]; rfl
      | 1, hspan => rw [hspan]; rfl
      | (m + 2), hspan =>
        rw [hspan]
        exact jsonToolCall_brace_backslash _
    | none =>
      rw [hm] at h
      exact ih span h

theorem extractToolCall_no_call (response : String) :
    extractToolCall response = (none, none, response) := by
  cases hres : regexSearch response.data with
  | none => simp [extractToolCall, hres]
  | some span =>
    simp [extractToolCall, hres, regexSearch_span_undecodable response.data span hres]

theorem pruneLoop_drop (maxT : Nat) :
    ∀ (msgs : List Message) (tc : Int),
      ∃ k, (pruneLoop maxT msgs tc).1 = msgs.drop k ∧
        k + min 3 msgs.length ≤ msgs.length := by
  intro msgs
  induction msgs with
  | nil =>
    intro tc
    exact ⟨0, rfl, by simp⟩
  | cons m rest ih =>
    intro tc
    rw [pruneLoop]
    by_cases hg : 10 * (maxT : Int) < tc ∧ 3 < (m :: rest).length
    · rw [if_pos hg]
      obtain ⟨k, hk, hlen⟩ := ih (tc - msgTokens m.content)
      refine ⟨k + 1, by simpa using hk, ?_⟩
      have h3 : 3 < rest.length + 1 := by simpa using hg.2
      simp only [List.length_cons]
      omega
    · rw [if_neg hg]
      exact ⟨0, rfl, by simp [Nat.min_le_right]⟩

theorem addMessage_messages (mem : Memory) (role content : String) :
    (mem.addMessage role content).messages =
      (pruneLoop mem.maxTokens (mem.messages ++ [{ role := role, content := content }])
        (mem.tokenCount + msgTokens content)).1 := rfl

theorem addMessage_suffix (mem : Memory) (role content : String) :
    (mem.addMessage role content).messages <:+
      mem.messages ++ [{ role := role, content := content }] := by
  obtain ⟨k, hk, _⟩ := pruneLoop_drop mem.maxTokens
    (mem.messages ++ [{ role := role, content := content }])
    (mem.tokenCount + msgTokens content)
  rw [addMessage_messages, hk]
  exact List.drop_suffix k _

theorem runAdds_suffix_aux :
    ∀ (adds : List (String × String)) (mem : Memory) (hist : List Message),
      mem.messages <:+ hist →
      (runAdds mem adds).messages <:+
        hist ++ adds.map (fun rc => { role := rc.1, content := rc.2 }) := by
  intro adds
  induction adds with
  | nil =>
    intro mem hist h
    simpa [runAdds] using h
  | cons rc tl ih =>
    intro mem hist h
    have hstep : (mem.addMessage rc.1 rc.2).messages <:+
        hist ++ [{ role := rc.1, content := rc.2 }] := by
      refine (addMessage_suffix mem rc.1 rc.2).trans ?_
      obtain ⟨t, ht⟩ := h
      exact ⟨t, by rw [← List.append_assoc, ht]⟩
    have := ih (mem.addMessage rc.1 rc.2) (hist ++ [{ role := rc.1, content := rc.2 }]) hstep
    simpa [runAdds, List.foldl_cons, List.append_assoc] using this

/-- Claim C1 (code divergence, evaluated at the failing input): on a text
containing exactly one well-formed tool-call substring, the extractor of
Agent._extract_tool_call returns no tool name, no parameters and the text
unchanged, although the substring decodes as a well-formed tool call under
the wire convention.  The raw-string regex of the source doubles its
backslashes, so it only matches text containing literal backslash
characters and can never match the plain JSON shape. -/
theorem extract_misses_wellformed_call :
    extractToolCall c1Input = (none, none, c1Input) ∧
      jsonToolCall c1Json.data = some ("X", [("a", "b")]) :=
  ⟨extractToolCall_no_call c1Input, rfl⟩

/-- Claim C2 (code divergence, evaluated at the failing input): in scenario
B the turn issues one backend call, not two, returns the primary response
with the embedded call left in place, and records that full primary
response as the assistant message; no tool output message is added. -/
theorem scenario_b_single_call :
    (c2Agent.processUserInput "compute 2+2" c2Backend).1 = .ok c2Primary ∧
      (c2Agent.processUserInput "compute 2+2" c2Backend).2.2 = 1 ∧
      (c2Agent.processUserInput "compute 2+2" c2Backend).2.1.memory.messages =
        [{ role := "system", content := "sys" },
         { role := "user", content := "compute 2+2" },
         { role := "assistant", content := c2Primary }] := by
  refine ⟨?_, ?_, ?_⟩
  · have h := extractToolCall_no_call c2Primary
    simp [Agent.processUserInput, c2Backend, h]
  · have h := extractToolCall_no_call c2Primary
    simp [Agent.processUserInput, c2Backend, h]
  · have h := extractToolCall_no_call c2Primary
    simp [Agent.processUserInput, c2Backend, h]
    decide

/-- Claim C3: once the memory holds at least 3 messages, an append (with
its triggered eviction) leaves at least 3 messages, however large the
counter is and however small the budget: the eviction loop stops at length
3 even while over budget. -/
theorem addMessage_keeps_three (mem : Memory) (role content : String)
    (h : 3 ≤ mem.messages.length) :
    3 ≤ (mem.addMessage role content).messages.length := by
  obtain ⟨k, hk, hlen⟩ := pruneLoop_drop mem.maxTokens
    (mem.messages ++ [{ role := role, content := content }])
    (mem.tokenCount + msgTokens content)
  rw [addMessage_messages, hk, List.length_drop]
  rw [List.length_append] at hlen ⊢
  simp only [List.length_singleton] at hlen ⊢
  omega

/-- Witness for claim C3 at a concrete over-budget memory of three
messages. -/
theorem addMessage_keeps_three_witness :
    3 ≤ memC3.messages.length ∧
      3 ≤ ((memC3.addMessage "user" "d").messages.length) :=
  ⟨by decide, addMessage_keeps_three memC3 "user" "d" (by decide)⟩

/-- Claim C5, counterexample: with budget 1, after appending the four
one-word messages a, b, c, d, the first message ever appended has been
evicted; only b, c, d remain.  The eviction loop protects the oldest 3
currently retained messages, not the first 3 ever appended. -/
theorem first_message_evicted :
    ¬ ({ role := "user", content := "a" } : Message) ∈ memC5.messages ∧
      memC5.messages.map Message.content = ["b", "c", "d"] := by
  decide

/-- Claim C5 as amended: an append never evicts any of the 3 newest
messages at that point: the last three entries of the appended sequence
(all of it while shorter) survive the triggered eviction as a suffix of
the retained sequence. -/
theorem eviction_keeps_last_three (mem : Memory) (role content : String) :
    ((mem.messages ++ [({ role := role, content := content } : Message)]).drop
        (mem.messages.length - 2)) <:+
      (mem.addMessage role content).messages := by
  obtain ⟨k, hk, hlen⟩ := pruneLoop_drop mem.maxTokens
    (mem.messages ++ [({ role := role, content := content } : Message)])
    (mem.tokenCount + msgTokens content)
  rw [addMessage_messages, hk]
  have hkle : k ≤ mem.messages.length - 2 := by
    rw [List.length_append] at hlen
    simp only [List.length_singleton] at hlen
    omega
  have hdec : (mem.messages ++ [({ role := role, content := content } : Message)]).drop
      (mem.messages.length - 2) =
      ((mem.messages ++ [({ role := role, content := content } : Message)]).drop k).drop
        (mem.messages.length - 2 - k) := by
    rw [List.drop_drop]
    congr 1
    omega
  rw [hdec]
  exact List.drop_suffix _ _

/-- Claim C6: whenever a turn ends in a backend error, the error is the
result surfaced to the caller, exactly one generation call was issued, and
the memory holds exactly the prior messages plus the user message of the
turn: no assistant message was recorded.  (The followup generation call is
unreachable because the extractor never reports a call, so the primary
call is the only one that can fail.) -/
theorem backend_error_leaves_memory_consistent (a : Agent) (input : String)
    (backend : Nat → List ChatMessage → Except String String) (e : String)
    (h : (a.processUserInput input backend).1 = .error e) :
    a.processUserInput input backend =
      (.error e, { a with memory := a.memory.addMessage "user" input }, 1) := by
  cases hb : backend 0 ((a.memory.addMessage "user" input).getChatMessages) with
  | error e2 =>
    have hres : a.processUserInput input backend =
        (.error e2, { a with memory := a.memory.addMessage "user" input }, 1) := by
      simp [Agent.processUserInput, hb]
    rw [hres] at h
    rw [hres]
    cases h
    rfl
  | ok response =>
    exfalso
    have hx := extractToolCall_no_call response
    have hres : (a.processUserInput input backend).1 = .ok response := by
      simp [Agent.processUserInput, hb, hx]
    rw [hres] at h
    exact Except.noConfusion h

/-- Witness for claim C6 at a concrete agent and failing backend. -/
theorem backend_error_witness :
    c6Agent.processUserInput "hi" c6Backend =
      (.error "connection refused",
        { c6Agent with memory := c6Agent.memory.addMessage "user" "hi" }, 1) :=
  backend_error_leaves_memory_consistent c6Agent "hi" c6Backend
    "connection refused" rfl

/-- Claim C7: tool execution is total (it returns a string and never
fails): on a name registered by no tool it returns the Unknown tool string
naming the request; when the first tool of the matching name raises with
cause c it returns the Error executing tool string naming the tool and the
cause. -/
theorem executeTool_total_spec (tools : List Tool) (toolName : String)
    (params : List (String × String)) :
    ((∀ t ∈ tools, t.name ≠ toolName) →
      executeTool tools toolName params = "Unknown tool: " ++ toolName) ∧
    (∀ t, tools.find? (fun t2 => t2.name == toolName) = some t →
      ∀ c, t.run params = .error c →
        executeTool tools toolName params =
          "Error executing tool \x27" ++ toolName ++ "\x27: " ++ c) := by
  induction tools with
  | nil =>
    refine ⟨fun _ => rfl, fun t ht => ?_⟩
    simp [List.find?] at ht
  | cons hd tl ih =>
    constructor
    · intro hall
      have hne : hd.name ≠ toolName := hall hd (List.mem_cons_self hd tl)
      simp only [executeTool]
      rw [if_neg hne]
      exact ih.1 (fun t htl => hall t (List.mem_cons_of_mem hd htl))
    · intro t ht c hc
      by_cases hn : hd.name = toolName
      · have hb : (hd.name == toolName) = true := by simp [hn]
        simp only [List.find?_cons, hb, Option.some.injEq] at ht
        subst ht
        simp only [executeTool]
        rw [if_pos hn, hc]
      · have hb : (hd.name == toolName) = false := by simp [hn]
        simp only [List.find?_cons, hb] at ht
        simp only [executeTool]
        rw [if_neg hn]
        exact ih.2 t ht c hc

/-- Witness for claim C7: the empty registry on any name, and a registry
whose matching tool raises. -/
theorem executeTool_total_spec_witness :
    executeTool [] "ghost" [] = "Unknown tool: ghost" ∧
      executeTool [c7Tool] "boom" [] =
        "Error executing tool \x27boom\x27: kaboom" :=
  ⟨(executeTool_total_spec [] "ghost" []).1 (by simp),
   (executeTool_total_spec [c7Tool] "boom" []).2 c7Tool rfl "kaboom" rfl⟩

/-- Claim C8, counterexample: constructing the agent with two tools of the
same name succeeds; the duplicate-named list is retained unchanged and the
memory is initialised normally, so construction is not rejected. -/
theorem duplicate_names_accepted :
    (agentInit "llama3" (some "sys") (some dupTools) [] false).tools = dupTools ∧
      (agentInit "llama3" (some "sys") (some dupTools) [] false).memory.messages =
        [{ role := "system", content := "sys" }] :=
  ⟨rfl, rfl⟩

/-- Claim C8 as amended: construction performs no uniqueness validation:
any nonempty tool list, duplicate names included, is accepted as given. -/
theorem agentInit_keeps_tools (model sp : String) (ts standardTools : List Tool)
    (v : Bool) (h : ts ≠ []) :
    (agentInit model (some sp) (some ts) standardTools v).tools = ts := by
  cases ts with
  | nil => exact absurd rfl h
  | cons a l => rfl

/-- Witness for the amended claim C8 at the duplicate-named list. -/
theorem agentInit_keeps_tools_witness :
    dupTools ≠ [] ∧
      (agentInit "llama3" (some "sys") (some dupTools) [] false).tools = dupTools :=
  ⟨by simp [dupTools],
   agentInit_keeps_tools "llama3" "sys" dupTools [] false (by simp [dupTools])⟩

/-- Claim C9, counterexample: requesting the last 0 messages of a nonempty
memory returns all of its messages, not the empty list, because the Python
slice with index negative zero is the whole-list slice. -/
theorem tail_zero_returns_all :
    memC9.getLastNMessages 0 ≠ [] ∧
      memC9.getLastNMessages 0 = [{ role := "user", content := "hi" }] := by
  decide

/-- Claim C9 as amended: for n at least 1 the tail returns exactly the
last n messages in order (all of them when n exceeds the length), while
for n = 0 it returns all messages rather than the empty list. -/
theorem getLastN_spec (mem : Memory) (n : Nat) :
    (1 ≤ n → mem.getLastNMessages n =
      ((mem.messages.map Message.toChatMessage).reverse.take n).reverse) ∧
    mem.getLastNMessages 0 = mem.messages.map Message.toChatMessage := by
  constructor
  · intro hn
    have hne : ¬ n = 0 := by omega
    simp only [Memory.getLastNMessages, if_neg hne]
    rw [List.take_reverse, List.reverse_reverse, List.length_map, List.map_drop]
  · simp [Memory.getLastNMessages]

/-- Witness for the amended claim C9 at a two-message memory and n = 1. -/
theorem getLastN_spec_witness :
    1 ≤ 1 ∧
      memC9b.getLastNMessages 1 =
        ((memC9b.messages.map Message.toChatMessage).reverse.take 1).reverse :=
  ⟨by decide, (getLastN_spec memC9b 1).1 (by decide)⟩

/-- Claim C10: for every sequence of appends starting from a fresh memory,
the retained messages form a contiguous suffix, in insertion order and
with roles and contents unmodified, of the full history of messages ever
appended. -/
theorem retained_messages_suffix_of_history (maxT : Nat)
    (adds : List (String × String)) :
    (runAdds (Memory.init maxT) adds).messages <:+
      adds.map (fun rc => { role := rc.1, content := rc.2 }) := by
  have h := runAdds_suffix_aux adds (Memory.init maxT) []
    (List.suffix_refl [])
  simpa using h

end OllamaAgent
